import Mathlib

/-!
Verification of the pypn5180 NFC reader library (ISO/IEC 15693 on the NXP
PN5180 chip): a shallow embedding of the command-framing, error
classification, transceive engine and block-aligned byte-range I/O layers,
together with theorems checking the natural-language specification against
the code.

Machine integers are modelled as `Nat` (Python integers are unbounded; the
values involved are small and never overflow in the modelled paths).  Byte
strings are `List Nat`.  Fallible code is modelled with `Option`/`Except`.
-/

namespace PyPn5180

/-! ### iso_iec_15693.py: the datasheet error table and `getError` -/

/-- The `ERROR_CODE` dictionary of `iso_iec_15693` (iso_iec_15693.py lines
36-48), as a partial map: `ERROR_CODE c = some s` iff the Python dict maps
key `c` to string `s`. -/
def ERROR_CODE (code : Nat) : Option String :=
  if code = 0x00 then some "ERROR CODE ZERO"
  else if code = 0x01 then some "The command is not supported, i.e. the request code is not recognised."
  else if code = 0x02 then some "The command is not recognised, for example: a format error occurred."
  else if code = 0x03 then some "The option is not supported."
  else if code = 0x0F then some "Unknown error."
  else if code = 0x10 then some "The specified block is not available (doesn t exist)."
  else if code = 0x11 then some "The specified block is already -locked and thus cannot be locked again"
  else if code = 0x12 then some "The specified block is locked and its content cannot be changed."
  else if code = 0x13 then some "The specified block was not successfully programmed."
  else if code = 0x14 then some "The specified block was not successfully locked"
  else if code = 0xA7 then some "CUSTOM ERROR 0xA7"
  else none

/-- `iso_iec_15693.getError` (iso_iec_15693.py lines 83-89).  Python's
`self.ERROR_CODE.get(data[0], str(data[0]))` falls back on the decimal
string of the code (`str` of an int); `Nat.repr` is that decimal string.
`data.headD 0` stands for `data[0]`; every modelled call site with
`flags` outside `{0, 0xFF}` passes a nonempty `data`. -/
def getError (flags : Nat) (data : List Nat) : String :=
  if flags = 0xFF then "Transaction ERROR: No Answer from tag"
  else if flags ≠ 0 then
    "Transaction ERROR: " ++ ((ERROR_CODE (data.headD 0)).getD (Nat.repr (data.headD 0)))
  else "Transaction OK"

/-! ### nfc.py: TagMemory — the block-aligned byte-range layer -/

/-- The generator `chunks(buffer, block_size)` of nfc.py lines 37-40,
with explicit fuel; `chunks` below instantiates the fuel with the buffer
length, which suffices whenever `block_size ≥ 1` (with `block_size = 0`
Python's `range(0, len, 0)` raises `ValueError`). -/
def chunksFuel (fuel : Nat) (buffer : List Nat) (block_size : Nat) : List (List Nat) :=
  match fuel with
  | 0 => []
  | f + 1 =>
    if buffer = [] then []
    else buffer.take block_size :: chunksFuel f (buffer.drop block_size) block_size

/-- `chunks(buffer, block_size)` of nfc.py lines 37-40: successive
`block_size`-sized slices of the buffer. -/
def chunks (buffer : List Nat) (block_size : Nat) : List (List Nat) :=
  chunksFuel buffer.length buffer block_size

/-- Python's `enumerate(it, start=s)`: pairs each element with its index,
starting at `s`. -/
def enumFrom (s : Nat) : List (List Nat) → List (Nat × List Nat)
  | [] => []
  | x :: xs => (s, x) :: enumFrom (s + 1) xs

/-- The block writes issued by `NfcReader.write(offset, data)` (nfc.py
lines 72-93), as the list of `(block_number, block_content)` pairs passed
to `writeSingleBlockCmd`, in order.  Mirrors the source: left-pad with
`delta_pre = offset % block_size` zeros, right-pad with
`delta_post = block_size - (len % block_size)` zeros (note: a full extra
block when `len` is already a multiple of `block_size`), chunk, and
enumerate from `start_block`. -/
def writeChunks (block_size offset : Nat) (data : List Nat) : List (Nat × List Nat) :=
  let delta_pre := offset % block_size
  let data1 := List.replicate delta_pre 0 ++ data
  let delta_post := block_size - data1.length % block_size
  let data2 := data1 ++ List.replicate delta_post 0
  let start_block := (offset - delta_pre) / block_size
  enumFrom start_block (chunks data2 block_size)

/-- The tag side of READ_MULTIPLE_BLOCK: an ISO 15693 tag answering a
read of `count` blocks starting at block `start` returns the
corresponding `count * block_size` bytes of its memory (the RF parameter
is zero-based, so the frame parameter `N` makes `count = N + 1`). -/
def tagReadBlocks (mem : List Nat) (block_size start count : Nat) : List Nat :=
  (mem.drop (start * block_size)).take (count * block_size)

/-- `NfcReader.read(offset, bytes)` (nfc.py lines 56-70) run against a tag
with memory `mem` and the given block size, returning the bytes handed
back to the caller.  Mirrors the source arithmetic exactly:
`total_bytes = bytes + skip; total_bytes += total_bytes % block_size;
num_blocks = total_bytes // block_size; num_blocks -= 1` — `num_blocks`
is kept as `Int` because the Python value can go negative — and the
result is the slice `data[skip : skip + bytes]`. -/
def nfcRead (block_size : Nat) (mem : List Nat) (offset bytes : Nat) : List Nat :=
  let skip := offset % block_size
  let offset1 := offset - skip
  let start_block := offset1 / block_size
  let total_bytes0 := bytes + skip
  let total_bytes := total_bytes0 + total_bytes0 % block_size
  let num_blocks : Int := (total_bytes / block_size : Nat) - 1
  let data := tagReadBlocks mem block_size start_block (num_blocks + 1).toNat
  (data.drop skip).take bytes

/-- The zero-based block-count parameter placed in the READ_MULTIPLE_BLOCK
frame by `NfcReader.read(offset, bytes)`, and the first-block parameter. -/
def nfcReadCallParams (block_size offset bytes : Nat) : Nat × Int :=
  let skip := offset % block_size
  let start_block := (offset - skip) / block_size
  let total_bytes0 := bytes + skip
  let total_bytes := total_bytes0 + total_bytes0 % block_size
  (start_block, (total_bytes / block_size : Nat) - 1)

/-- Writing one whole block into a flat tag memory: bytes
`[block_number * block_size, block_number * block_size + block_size)` are
replaced by `content`. -/
def writeBlockMem (mem : List Nat) (block_size block_number : Nat) (content : List Nat) : List Nat :=
  mem.take (block_number * block_size) ++ content ++
    mem.drop (block_number * block_size + block_size)

/-- Applying a list of block writes to a tag memory in order. -/
def applyWrites (mem : List Nat) (block_size : Nat) (ws : List (Nat × List Nat)) : List Nat :=
  ws.foldl (fun m c => writeBlockMem m block_size c.1 c.2) mem

/-! ### nfc.py: the write loop of `NfcReader.write` -/

/-- The body of the `for block_num, block_data in enumerate(...)` loop of
`NfcReader.write` (nfc.py lines 86-93) run against a device: `resp i` is
the `(flags, data)` pair returned by `transactionIsoIec15693` for the
`i`-th `writeSingleBlockCmd` issued (indexing by call position keeps the
device free to answer differently over time).  Returns the list of
`(block_number, content)` pairs actually sent, and `some message` when the
loop raised `Exception(f-string naming the block and err)` — the raise
fires exactly when the response `data` is nonempty (`if data:`). -/
def runWriteLoop (resp : Nat → Nat × List Nat) : Nat → List (Nat × List Nat) →
    List (Nat × List Nat) × Option String
  | _, [] => ([], none)
  | i, (bn, bd) :: rest =>
    let r := resp i
    if r.2 ≠ [] then
      ([(bn, bd)],
        some ("Error writing block " ++ Nat.repr bn ++ ": " ++ getError r.1 r.2))
    else
      let t := runWriteLoop resp (i + 1) rest
      ((bn, bd) :: t.1, t.2)

/-- `NfcReader.write(offset, data)` (nfc.py lines 72-93) run against a
device `resp`: the block writes actually issued and the error outcome. -/
def nfcWrite (block_size offset : Nat) (data : List Nat)
    (resp : Nat → Nat × List Nat) : List (Nat × List Nat) × Option String :=
  runWriteLoop resp 0 (writeChunks block_size offset data)

/-! ### iso_iec_15693.py: command frame builders

Python's `if uid is not []:` compares object identity against a fresh
empty-list literal, which is never the same object as `uid`; the
condition is therefore `True` on every call, whatever `uid` holds. -/

/-- The condition `uid is not []` of the command builders
(iso_iec_15693.py lines 115, 131, 157, 263, ...): identity comparison
with a fresh list literal — always `True` in Python, for every `uid`. -/
def uidIsNotEmptyListLiteral (uid : List Nat) : Bool :=
  let _ := uid
  true

/-- `iso_iec_15693.readSingleBlockCmd` frame construction
(iso_iec_15693.py lines 111-118): `[flags, 0x20]`, then — when the
always-true identity check passes — `frame[0] |= 0x20` and the UID bytes,
then the block number. -/
def readSingleBlockCmdFrame (flags blockNumber : Nat) (uid : List Nat) : List Nat :=
  if uidIsNotEmptyListLiteral uid then
    ((flags ||| 0x20) :: 0x20 :: uid) ++ [blockNumber]
  else
    [flags, 0x20, blockNumber]

/-- `iso_iec_15693.writeSingleBlockCmd` frame construction
(iso_iec_15693.py lines 126-135). -/
def writeSingleBlockCmdFrame (flags blockNumber : Nat) (data uid : List Nat) : List Nat :=
  if uidIsNotEmptyListLiteral uid then
    ((flags ||| 0x20) :: 0x21 :: uid) ++ blockNumber :: data
  else
    (flags :: 0x21 :: [blockNumber]) ++ data

/-- `iso_iec_15693.readMultipleBlocksCmd` frame construction
(iso_iec_15693.py lines 153-161). -/
def readMultipleBlocksCmdFrame (flags firstBlockNumber numberOfBlocks : Nat)
    (uid : List Nat) : List Nat :=
  if uidIsNotEmptyListLiteral uid then
    ((flags ||| 0x20) :: 0x23 :: uid) ++ [firstBlockNumber, numberOfBlocks]
  else
    [flags, 0x23, firstBlockNumber, numberOfBlocks]

/-- `iso_iec_15693.getSystemInformationCmd` frame construction
(iso_iec_15693.py lines 258-265). -/
def getSystemInformationCmdFrame (flags : Nat) (uid : List Nat) : List Nat :=
  if uidIsNotEmptyListLiteral uid then
    (flags ||| 0x20) :: 0x2B :: uid
  else
    [flags, 0x2B]

/-! ### iso_iec_15693.py: inventory and system information decoding -/

/-- `iso_iec_15693.inventoryCmd` (iso_iec_15693.py lines 91-103) applied
to the `(flags, data)` pair the transaction returned: a payload shorter
than 9 bytes with `flags == 0` is reclassified as no answer
(`flags = 0xFF`); on error `(None, message)` is returned (modelled
`(none, message)`), on success the UID is `data[1:9]`. -/
def inventoryCmd (flags : Nat) (data : List Nat) : Option (List Nat) × String :=
  let flags1 := if flags = 0 ∧ data.length < 9 then 0xFF else flags
  if flags1 ≠ 0 then (none, getError flags1 data)
  else (some ((data.drop 1).take 8), "")

/-- The `TagInfo` namedtuple of `iso_iec_15693.getSystemInformationCmd`
(iso_iec_15693.py lines 286-288). -/
structure TagInfo where
  dsfid : Nat
  afi : Nat
  num_blocks : Nat
  block_size : Nat
deriving DecidableEq

/-- The payload decoding of `iso_iec_15693.getSystemInformationCmd`
(iso_iec_15693.py lines 271-289): byte 0 is the info-flags bitmask, the
pointer starts at `p = 9` (past the 8 UID bytes), and each set low bit
consumes its field in order; absent fields stay 0.  `none` models the
`IndexError` Python raises when the payload is too short for the
advertised fields. -/
def getSystemInformationDecode (data : List Nat) : Option TagInfo := do
  let info_flags ← data[0]?
  let p := 9
  let (dsfid, p) ←
    if info_flags &&& 0x1 ≠ 0 then do
      let d ← data[p]?
      pure (d, p + 1)
    else pure (0, p)
  let (afi, p) ←
    if info_flags &&& 0x2 ≠ 0 then do
      let a ← data[p]?
      pure (a, p + 1)
    else pure (0, p)
  let (num_blocks, block_size) ←
    if info_flags &&& 0x4 ≠ 0 then do
      let nb ← data[p]?
      let bs ← data[p + 1]?
      pure (nb + 1, (bs &&& 0x1F) + 1)
    else pure (0, 0)
  pure ⟨dsfid, afi, num_blocks, block_size⟩

/-- `iso_iec_15693.getSystemInformationCmd` (iso_iec_15693.py lines
258-289) applied to the transaction result: on nonzero flags it returns
the error pair (Python returns `("", error)`; the absent `TagInfo` is
modelled `none`), otherwise it decodes the payload. -/
def getSystemInformationCmdResult (flags : Nat) (data : List Nat) :
    Option (Option TagInfo × String) :=
  if flags ≠ 0 then some (none, getError flags data)
  else (getSystemInformationDecode data).map (fun t => (some t, ""))

/-! ### pypn5180.py: the transceive engine `PN5180.transactionIsoIec15693`

The engine is stateful hardware access; it is embedded as a function of an
environment describing what the chip registers would return, producing the
trace of chip operations performed plus the returned `(flags, data)` pair.
Time is embodied by the lists of successive `IRQ_STATUS` reads available
inside each polling window: the loop re-reads while its deadline holds, so
exhausting the list is exactly the deadline expiring. -/

/-- The `RF_STATUS_TRANSCEIVE_STATE` table of pypn5180hal.py lines
224-233, keyed by the 3-bit field value (the engine only ever extracts
2 bits, `(regvalue >> 24) & 0x3`). -/
def RF_STATUS_TRANSCEIVE_STATE (v : Nat) : String :=
  if v = 0 then "IDLE"
  else if v = 1 then "WAIT_TRANSMIT"
  else if v = 2 then "TRANSMITTING"
  else if v = 3 then "WAIT_RECEIVE"
  else if v = 4 then "WAIT_FOR_DATA"
  else if v = 5 then "RECEIVING"
  else if v = 6 then "LOOPBACK"
  else "RESERVED"

/-- `PN5180.getRfStatusTransceiveState` (pypn5180.py lines 182-185):
extract bits 24-25 of the `RF_STATUS` register and name them. -/
def getRfStatusTransceiveState (rfStatusReg : Nat) : String :=
  RF_STATUS_TRANSCEIVE_STATE ((rfStatusReg >>> 24) &&& 0x3)

/-- `IRQ_STATUS["RX_SOF_DET_IRQ_STAT"]` (pypn5180hal.py line 253). -/
def RX_SOF_DET_IRQ_STAT : Nat := 1 <<< 14

/-- `IRQ_STATUS["RX_IRQ_STAT"]` (pypn5180hal.py line 250). -/
def RX_IRQ_STAT : Nat := 1 <<< 0

/-- One chip operation performed by the engine, at the granularity of the
helper methods it calls.  `setCmd m` is `setSystemCommand` with the
`SYSTEM_CONFIG` value `m`: `0x0 = COMMAND_IDLE_SET`,
`0x3 = COMMAND_TRANSCEIVE_SET` (pypn5180hal.py lines 217-218). -/
inductive ChipOp where
  | clearIrq
  | setCmd (mode : Nat)
  | send (frame : List Nat)
  | readData (n : Nat)
deriving DecidableEq

/-- A deadline-driven IRQ polling loop (pypn5180.py lines 144-150 and
157-165): `cur` is the status read before the loop; each iteration keeps
the current status when the watched bit is set, and otherwise re-reads —
`next` lists the statuses the remaining time allows to be read, so an
empty `next` is the deadline expiring.  The value is the final
`irq_status`. -/
def pollIrq (bit cur : Nat) : List Nat → Nat
  | [] => cur
  | x :: xs => if cur &&& bit ≠ 0 then cur else pollIrq bit x xs

/-- What the chip would answer during one transaction: the `RF_STATUS`
register value at the state check, the successive `IRQ_STATUS` reads
available in the phase-A (pre-detect, 1 ms) and phase-B (receive, 50 ms)
windows — first read plus the re-reads each window's deadline allows —
the `RX_STATUS` low 9 bits (byte count) and the bytes `readData`
returns. -/
structure ChipEnv where
  rfStatusReg : Nat
  irqA0 : Nat
  irqAs : List Nat
  irqB0 : Nat
  irqBs : List Nat
  nbBytes : Nat
  rx : List Nat

/-- `PN5180.transactionIsoIec15693(command)` (pypn5180.py lines 131-180)
over a chip environment: the trace of chip operations and the returned
`(flags, data)`, or `Except.error` for the `raise Exception("Error in RF
state")` path.  Mirrors the source: clear IRQ; set TRANSCEIVE; require
`WAIT_TRANSMIT`; send; poll for RX start and bail with `(0xFF, [])` after
restoring IDLE when the bit never appeared; poll for RX completion (the
loop result is only timing — the code reads the byte count and data
either way); split the response into flags and payload, or `(0xFF, [])`
when it is empty; restore IDLE; return. -/
def transactionIsoIec15693 (env : ChipEnv) (command : List Nat) :
    Except String (List ChipOp × Nat × List Nat) :=
  let ops0 := [ChipOp.clearIrq, ChipOp.setCmd 0x3]
  if getRfStatusTransceiveState env.rfStatusReg ≠ "WAIT_TRANSMIT" then
    Except.error "Error in RF state"
  else
    let ops1 := ops0 ++ [ChipOp.send command]
    let irqA := pollIrq RX_SOF_DET_IRQ_STAT env.irqA0 env.irqAs
    if irqA &&& RX_SOF_DET_IRQ_STAT = 0 then
      Except.ok (ops1 ++ [ChipOp.setCmd 0x0], 0xFF, [])
    else
      let _irqB := pollIrq RX_IRQ_STAT env.irqB0 env.irqBs
      let response := env.rx
      let fd : Nat × List Nat :=
        match response with
        | [] => (0xFF, [])
        | f :: rest => (f, rest)
      Except.ok (ops1 ++ [ChipOp.readData env.nbBytes, ChipOp.setCmd 0x0], fd.1, fd.2)

/-! ### Concrete devices and environments used as test fixtures -/

/-- A device that never answers: every transaction yields flags `0xFF`
with an empty payload. -/
def noAnswerDevice : Nat → Nat × List Nat :=
  fun _ => (0xFF, [])

/-- A device whose first transaction succeeds silently and whose second
answers with error flags 1 and payload `[0x10]` (block not available). -/
def failAtSecondDevice : Nat → Nat × List Nat :=
  fun i => if i = 0 then (0, []) else (1, [0x10])

/-- A chip whose `RF_STATUS` holds transceive state `WAIT_TRANSMIT`
(value 1 in bits 24-25) and whose IRQ status stays 0: the RX-start bit
never appears inside the pre-detect window. -/
def quietChipEnv : ChipEnv :=
  { rfStatusReg := 0x1000000
    irqA0 := 0
    irqAs := []
    irqB0 := 0
    irqBs := []
    nbBytes := 0
    rx := [] }

/-! ## Helper lemmas -/

theorem chunksFuel_flatten {block_size : Nat} (hbs : 0 < block_size) :
    ∀ (f : Nat) (buffer : List Nat), buffer.length ≤ f →
      (chunksFuel f buffer block_size).flatten = buffer := by
  intro f
  induction f with
  | zero =>
    intro buffer hlen
    have : buffer = [] := List.eq_nil_of_length_eq_zero (Nat.le_zero.mp hlen)
    simp [this, chunksFuel]
  | succ f ih =>
    intro buffer hlen
    by_cases hb : buffer = []
    · simp [hb, chunksFuel]
    · have hdrop : (buffer.drop block_size).length ≤ f := by
        have h1 : 1 ≤ buffer.length := by
          cases buffer with
          | nil => exact absurd rfl hb
          | cons x xs => simp
        simp only [List.length_drop]
        omega
      simp only [chunksFuel, if_neg hb, List.flatten_cons, ih _ hdrop,
        List.take_append_drop]

theorem chunksFuel_length {block_size : Nat} (hbs : 0 < block_size) :
    ∀ (f : Nat) (buffer : List Nat), buffer.length ≤ f →
      block_size ∣ buffer.length →
      (chunksFuel f buffer block_size).length = buffer.length / block_size := by
  intro f
  induction f with
  | zero =>
    intro buffer hlen _
    have : buffer = [] := List.eq_nil_of_length_eq_zero (Nat.le_zero.mp hlen)
    simp [this, chunksFuel]
  | succ f ih =>
    intro buffer hlen hdvd
    by_cases hb : buffer = []
    · simp [hb, chunksFuel]
    · obtain ⟨q, hq⟩ := hdvd
      have hq0 : q ≠ 0 := by
        intro h0
        subst h0
        exact hb (List.eq_nil_of_length_eq_zero (by omega))
      obtain ⟨q1, rfl⟩ : ∃ q1, q = q1 + 1 := ⟨q - 1, by omega⟩
      rw [Nat.mul_succ] at hq
      have hdroplen : (buffer.drop block_size).length = block_size * q1 := by
        simp only [List.length_drop]
        omega
      have hdrop_le : (buffer.drop block_size).length ≤ f := by
        simp only [List.length_drop]
        omega
      simp only [chunksFuel, if_neg hb, List.length_cons,
        ih _ hdrop_le ⟨q1, hdroplen⟩, hdroplen, hq,
        Nat.add_div_right _ hbs, Nat.mul_div_cancel_left _ hbs]

theorem chunksFuel_mem_length {block_size : Nat} (hbs : 0 < block_size) :
    ∀ (f : Nat) (buffer : List Nat), buffer.length ≤ f →
      block_size ∣ buffer.length →
      ∀ c ∈ chunksFuel f buffer block_size, c.length = block_size := by
  intro f
  induction f with
  | zero =>
    intro buffer hlen _ c hc
    have : buffer = [] := List.eq_nil_of_length_eq_zero (Nat.le_zero.mp hlen)
    simp [this, chunksFuel] at hc
  | succ f ih =>
    intro buffer hlen hdvd c hc
    by_cases hb : buffer = []
    · simp [hb, chunksFuel] at hc
    · obtain ⟨q, hq⟩ := hdvd
      have hq0 : q ≠ 0 := by
        intro h0
        subst h0
        exact hb (List.eq_nil_of_length_eq_zero (by omega))
      obtain ⟨q1, rfl⟩ : ∃ q1, q = q1 + 1 := ⟨q - 1, by omega⟩
      rw [Nat.mul_succ] at hq
      simp only [chunksFuel, if_neg hb, List.mem_cons] at hc
      rcases hc with hc | hc
      · subst hc
        simp only [List.length_take]
        omega
      · have hdroplen : (buffer.drop block_size).length = block_size * q1 := by
          simp only [List.length_drop]
          omega
        have hdrop_le : (buffer.drop block_size).length ≤ f := by
          simp only [List.length_drop]
          omega
        exact ih _ hdrop_le ⟨q1, hdroplen⟩ c hc

theorem enumFrom_map_fst : ∀ (s : Nat) (l : List (List Nat)),
    (enumFrom s l).map Prod.fst = List.range' s l.length := by
  intro s l
  induction l generalizing s with
  | nil => simp [enumFrom]
  | cons x xs ih => simp [enumFrom, List.range', ih]

theorem enumFrom_map_snd : ∀ (s : Nat) (l : List (List Nat)),
    (enumFrom s l).map Prod.snd = l := by
  intro s l
  induction l generalizing s with
  | nil => simp [enumFrom]
  | cons x xs ih => simp [enumFrom, ih]

theorem enumFrom_mem_snd : ∀ (s : Nat) (l : List (List Nat)) (c : Nat × List Nat),
    c ∈ enumFrom s l → c.2 ∈ l := by
  intro s l
  induction l generalizing s with
  | nil => intro c hc; simp [enumFrom] at hc
  | cons x xs ih =>
    intro c hc
    simp only [enumFrom, List.mem_cons] at hc
    rcases hc with hc | hc
    · subst hc; simp
    · exact List.mem_cons_of_mem _ (ih _ _ hc)

theorem writeChunks_eq (block_size offset : Nat) (data : List Nat) (hbs : 0 < block_size) :
    writeChunks block_size offset data =
      enumFrom (offset / block_size)
        (chunks
          (List.replicate (offset % block_size) 0 ++ data ++
            List.replicate
              (block_size - (offset % block_size + data.length) % block_size) 0)
          block_size) := by
  have e1 := Nat.div_add_mod offset block_size
  have hstart : (offset - offset % block_size) / block_size = offset / block_size := by
    have h2 : offset - offset % block_size = block_size * (offset / block_size) := by
      omega
    rw [h2, Nat.mul_div_cancel_left _ hbs]
  simp only [writeChunks, List.length_append, List.length_replicate, hstart,
    List.append_assoc]

theorem pollIrq_all_clear (bit : Nat) :
    ∀ (rest : List Nat) (cur : Nat), cur &&& bit = 0 →
      (∀ x ∈ rest, x &&& bit = 0) → pollIrq bit cur rest &&& bit = 0 := by
  intro rest
  induction rest with
  | nil => intro cur hcur _; simpa [pollIrq] using hcur
  | cons x xs ih =>
    intro cur hcur hrest
    have hneg : ¬ (cur &&& bit ≠ 0) := by simp [hcur]
    simp only [pollIrq, if_neg hneg]
    exact ih x (hrest x (List.mem_cons_self _ _)) fun y hy =>
      hrest y (List.mem_cons_of_mem _ hy)

theorem runWriteLoop_all_clean (resp : Nat → Nat × List Nat) :
    ∀ (cs : List (Nat × List Nat)) (i : Nat),
      (∀ j < cs.length, (resp (i + j)).2 = []) →
      runWriteLoop resp i cs = (cs, none) := by
  intro cs
  induction cs with
  | nil => intro i _; rfl
  | cons c rest ih =>
    intro i h
    obtain ⟨bn, bd⟩ := c
    have h0 : (resp i).2 = [] := by
      have := h 0 (by simp)
      simpa using this
    have hneg : ¬ ((resp i).2 ≠ []) := by simp [h0]
    have hrec : runWriteLoop resp (i + 1) rest = (rest, none) := by
      apply ih
      intro j hj
      have hc := h (j + 1) (by simpa using Nat.succ_lt_succ hj)
      have ha : i + (j + 1) = i + 1 + j := by omega
      rw [ha] at hc
      exact hc
    simp only [runWriteLoop, if_neg hneg, hrec]

theorem runWriteLoop_stops_at_first_error (resp : Nat → Nat × List Nat) :
    ∀ (cs : List (Nat × List Nat)) (i k : Nat) (bn : Nat) (bd : List Nat),
      (∀ j < k, (resp (i + j)).2 = []) →
      (resp (i + k)).2 ≠ [] →
      cs[k]? = some (bn, bd) →
      runWriteLoop resp i cs =
        (cs.take (k + 1),
          some ("Error writing block " ++ Nat.repr bn ++ ": " ++
            getError (resp (i + k)).1 (resp (i + k)).2)) := by
  intro cs
  induction cs with
  | nil =>
    intro i k bn bd _ _ hk
    simp at hk
  | cons c rest ih =>
    intro i k bn bd hpre hk hget
    obtain ⟨bn0, bd0⟩ := c
    cases k with
    | zero =>
      simp only [List.getElem?_cons_zero, Option.some.injEq] at hget
      obtain ⟨rfl, rfl⟩ : bn0 = bn ∧ bd0 = bd := by
        constructor
        · exact congrArg Prod.fst hget
        · exact congrArg Prod.snd hget
      have hne : (resp i).2 ≠ [] := by
        have ha : i + 0 = i := by omega
        rw [ha] at hk
        exact hk
      simp only [runWriteLoop, if_pos hne, List.take_succ_cons, List.take_zero,
        Nat.add_zero]
    | succ k1 =>
      have h0 : (resp i).2 = [] := by
        have hc := hpre 0 (by omega)
        have ha : i + 0 = i := by omega
        rw [ha] at hc
        exact hc
      have hneg : ¬ ((resp i).2 ≠ []) := by simp [h0]
      simp only [List.getElem?_cons_succ] at hget
      have hsh : i + 1 + k1 = i + (k1 + 1) := by omega
      have hrec := ih (i + 1) k1 bn bd
        (fun j hj => by
          have hc := hpre (j + 1) (by omega)
          have ha : i + (j + 1) = i + 1 + j := by omega
          rw [ha] at hc
          exact hc)
        (by rw [hsh]; exact hk)
        hget
      rw [hsh] at hrec
      simp only [runWriteLoop, if_neg hneg, hrec, List.take_succ_cons]

/-! ## Claims -/

/-- C1: the claim is false on the code.  With `blockSize = 4`, tag memory
`[0..15]`, `read(0, 5)` computes `total_bytes = 5 + 5 % 4 = 6` — the
source adds `total_bytes % block_size` instead of rounding up — so the
zero-based block-count parameter is `6 / 4 - 1 = 0`, a single block is
read, the block range `[0, 4)` does not cover `[0, 5)`, and only 4 bytes
`[0, 1, 2, 3]` are returned instead of 5. -/
theorem read_undercovers_on_non_roundup :
    nfcReadCallParams 4 0 5 = (0, 0) ∧
    nfcRead 4 (List.range 16) 0 5 = [0, 1, 2, 3] ∧
    (nfcRead 4 (List.range 16) 0 5).length ≠ 5 := by
  refine ⟨?_, by decide, by decide⟩
  simp only [nfcReadCallParams]
  decide

/-- C2: the claim is false on the code.  With `blockSize = 4` over a
zeroed 16-byte tag, `write(2, [9, 9, 9])` does issue WRITE_SINGLE_BLOCK
for blocks 0 and 1 with contents `[0,0,9,9]` and `[9,0,0,0]` as claimed,
but the subsequent `read(2, 3)` computes `total_bytes = 5 + 5 % 4 = 6`,
reads a single block and returns `[9, 9]` — 2 bytes, not `[9, 9, 9]`. -/
theorem write_read_roundtrip_loses_a_byte :
    writeChunks 4 2 [9, 9, 9] = [(0, [0, 0, 9, 9]), (1, [9, 0, 0, 0])] ∧
    nfcRead 4 (applyWrites (List.replicate 16 0) 4 (writeChunks 4 2 [9, 9, 9])) 2 3
      = [9, 9] ∧
    ([9, 9] : List Nat) ≠ [9, 9, 9] := by
  refine ⟨by decide, by decide, by decide⟩

/-- C3, counterexample: the claim's "the blocks written are exactly those
covering [offset, offset+len(data))" fails when `offset + len(data)` is
block-aligned.  With `blockSize = 4`, `write(0, [1,2,3,4])` issues
WRITE_SINGLE_BLOCK for blocks 0 and 1 — `delta_post = 4 - (4 % 4) = 4`
appends a full extra zero block — although block 1's byte range `[4, 8)`
is disjoint from `[0, 4)`, so block 0 alone covers the request. -/
theorem write_pads_full_extra_block_when_aligned :
    writeChunks 4 0 [1, 2, 3, 4] = [(0, [1, 2, 3, 4]), (1, [0, 0, 0, 0])] ∧
    (writeChunks 4 0 [1, 2, 3, 4]).map Prod.fst = [0, 1] ∧
    ¬ (1 * 4 < 0 + 4) := by
  refine ⟨by decide, by decide, by decide⟩

/-- C3 (amended): for every `write(offset, data)` with `blockSize ≥ 1`,
the data is left-padded with `skip = offset % blockSize` zeros and
right-padded with `blockSize - (skip + len) % blockSize` zeros — between
1 and `blockSize` of them, a full extra zero block when `offset + len` is
already block-aligned — then split into whole `blockSize`-sized chunks
(no partial-block write), written at consecutive block numbers starting
at `startBlock = offset / blockSize`; the written block range starts at
or before `offset` and covers `[offset, offset + len)`, ending exactly
`blockSize - (skip + len) % blockSize` bytes past `offset + len`. -/
theorem write_blocks_whole_consecutive_cover
    (block_size offset : Nat) (data : List Nat) (hbs : 0 < block_size) :
    (∀ c ∈ writeChunks block_size offset data, c.2.length = block_size) ∧
    (writeChunks block_size offset data).map Prod.fst =
      List.range' (offset / block_size)
        ((offset % block_size + data.length) / block_size + 1) ∧
    ((writeChunks block_size offset data).map Prod.snd).flatten =
      List.replicate (offset % block_size) 0 ++ data ++
        List.replicate
          (block_size - (offset % block_size + data.length) % block_size) 0 ∧
    (offset / block_size) * block_size ≤ offset ∧
    offset + data.length ≤
      (offset / block_size +
        ((offset % block_size + data.length) / block_size + 1)) * block_size ∧
    (offset / block_size +
        ((offset % block_size + data.length) / block_size + 1)) * block_size =
      offset + data.length +
        (block_size - (offset % block_size + data.length) % block_size) ∧
    1 ≤ block_size - (offset % block_size + data.length) % block_size ∧
    block_size - (offset % block_size + data.length) % block_size ≤ block_size := by
  have e1 := Nat.div_add_mod offset block_size
  have e2 := Nat.div_add_mod (offset % block_size + data.length) block_size
  have hblt := Nat.mod_lt offset hbs
  have hrlt := Nat.mod_lt (offset % block_size + data.length) hbs
  have hchar := writeChunks_eq block_size offset data hbs
  have hlen2 :
      (List.replicate (offset % block_size) (0 : Nat) ++ data ++
        List.replicate
          (block_size - (offset % block_size + data.length) % block_size) 0).length =
      block_size * ((offset % block_size + data.length) / block_size + 1) := by
    simp only [List.length_append, List.length_replicate]
    rw [Nat.mul_succ]
    omega
  have hdvd :
      block_size ∣
      (List.replicate (offset % block_size) (0 : Nat) ++ data ++
        List.replicate
          (block_size - (offset % block_size + data.length) % block_size) 0).length :=
    ⟨_, hlen2⟩
  refine ⟨?_, ?_, ?_, ?_, ?_, ?_, by omega, by omega⟩
  · intro c hc
    rw [hchar] at hc
    exact chunksFuel_mem_length hbs _ _ le_rfl hdvd c.2 (enumFrom_mem_snd _ _ _ hc)
  · rw [hchar, enumFrom_map_fst, chunks,
      chunksFuel_length hbs _ _ le_rfl hdvd, hlen2, Nat.mul_div_cancel_left _ hbs]
  · rw [hchar, enumFrom_map_snd, chunks, chunksFuel_flatten hbs _ _ le_rfl]
  · have h4 : (offset / block_size) * block_size = block_size * (offset / block_size) :=
      Nat.mul_comm _ _
    omega
  · have h5 :
        (offset / block_size +
          ((offset % block_size + data.length) / block_size + 1)) * block_size =
        block_size * (offset / block_size) +
          block_size * ((offset % block_size + data.length) / block_size) +
          block_size := by
      ring
    omega
  · have h6 :
        (offset / block_size +
          ((offset % block_size + data.length) / block_size + 1)) * block_size =
        block_size * (offset / block_size) +
          block_size * ((offset % block_size + data.length) / block_size) +
          block_size := by
      ring
    omega

/-- C3, witness: the amended claim instantiated at `blockSize = 4`,
`write(2, [9, 9, 9])`: two whole blocks 0 and 1, contents concatenating
to `[0,0] ++ [9,9,9] ++ [0,0,0]`, covering `[2, 5)` within `[0, 8)`. -/
theorem write_blocks_whole_consecutive_cover_witness :
    ((0 : Nat), [0, 0, 9, 9]).2.length = 4 ∧
    (writeChunks 4 2 [9, 9, 9]).map Prod.fst = List.range' 0 2 ∧
    ((writeChunks 4 2 [9, 9, 9]).map Prod.snd).flatten =
      List.replicate 2 0 ++ [9, 9, 9] ++ List.replicate 3 0 ∧
    0 * 4 ≤ 2 ∧
    2 + 3 ≤ (0 + 2) * 4 ∧
    (0 + 2) * 4 = 2 + 3 + 3 ∧
    1 ≤ 3 ∧
    (3 : Nat) ≤ 4 :=
  have h := write_blocks_whole_consecutive_cover 4 2 [9, 9, 9] (by decide)
  ⟨h.1 (0, [0, 0, 9, 9]) (by decide), h.2⟩

/-- C4: the claim is false on the code.  The builders guard the UID
handling with Python's `uid is not []`, an identity comparison against a
fresh list literal that is always `True`; with no UID supplied
(`uid = []`, default request flags `0x02`) the transmitted frames still
carry bit `0x20` in the request-flags byte: `readSingleBlockCmd(5)`
produces `[0x22, 0x20, 0x05]` and `getSystemInformationCmd()` produces
`[0x22, 0x2B]`, both with bit `0x20` set and no UID bytes — the claim
says the bit is clear in that case. -/
theorem uid_flag_set_even_without_uid :
    readSingleBlockCmdFrame 0x02 5 [] = [0x22, 0x20, 0x05] ∧
    getSystemInformationCmdFrame 0x02 [] = [0x22, 0x2B] ∧
    readMultipleBlocksCmdFrame 0x02 0 1 [] = [0x22, 0x23, 0x00, 0x01] ∧
    writeSingleBlockCmdFrame 0x02 0 [1, 2, 3, 4] [] = [0x22, 0x21, 0x00, 1, 2, 3, 4] ∧
    0x22 &&& 0x20 ≠ 0 := by
  refine ⟨by decide, by decide, by decide, by decide, by decide⟩

/-- C5, counterexample: the claim's "codes absent from the table rendered
as raw hex" is false.  `0x21 = 33` is not a key of `ERROR_CODE`, and the
rendered message is `"Transaction ERROR: 33"` — Python's `str(data[0])`,
the decimal string — while the hex digits of 33 are `"21"`. -/
theorem getError_unmapped_code_renders_decimal :
    ERROR_CODE 0x21 = none ∧
    getError 0x01 [0x21] = "Transaction ERROR: 33" ∧
    (Nat.toDigits 16 0x21).asString = "21" ∧
    "Transaction ERROR: 33" ≠ "Transaction ERROR: 21" ∧
    "Transaction ERROR: 33" ≠ "Transaction ERROR: 0x21" := by
  refine ⟨by decide, by decide, by decide, by decide, by decide⟩

/-- C5 (amended): result classification by `getError`:
`responseFlags == 0xFF` yields the no-answer outcome; `responseFlags`
outside `{0, 0xFF}` yields a tag-error message taken from the fixed
datasheet table keyed by `payload[0]`, with codes absent from the table
rendered as the decimal string of the code; `responseFlags == 0` yields
success.  In particular flags `0x01` with payload `[0x10]` yields a
message containing "specified block is not available". -/
theorem getError_classifies_results (flags : Nat) (data : List Nat) :
    (flags = 0xFF → getError flags data = "Transaction ERROR: No Answer from tag") ∧
    (∀ s, flags ≠ 0 → flags ≠ 0xFF → ERROR_CODE (data.headD 0) = some s →
      getError flags data = "Transaction ERROR: " ++ s) ∧
    (flags ≠ 0 → flags ≠ 0xFF → ERROR_CODE (data.headD 0) = none →
      getError flags data = "Transaction ERROR: " ++ Nat.repr (data.headD 0)) ∧
    (flags = 0 → getError flags data = "Transaction OK") ∧
    getError 0x01 [0x10] =
      "Transaction ERROR: The " ++ "specified block is not available" ++
        " (doesn t exist)." := by
  refine ⟨?_, ?_, ?_, ?_, by decide⟩
  · intro h
    simp [getError, h]
  · intro s h0 hff hs
    simp only [getError, if_neg hff, if_pos h0, hs, Option.getD_some]
  · intro h0 hff hs
    simp only [getError, if_neg hff, if_pos h0, hs, Option.getD_none]
  · intro h
    simp [getError, h]

/-- C5, witness: the classification applied at concrete results — a
mapped code (flags `0x01`, payload `[0x10]`), an unmapped code (payload
`[0x21]`), the no-answer flags `0xFF` and the success flags 0. -/
theorem getError_classifies_results_witness :
    getError 0x01 [0x10] =
      "Transaction ERROR: " ++
        "The specified block is not available (doesn t exist)." ∧
    getError 0x01 [0x21] = "Transaction ERROR: " ++ Nat.repr 0x21 ∧
    getError 0xFF [] = "Transaction ERROR: No Answer from tag" ∧
    getError 0 [1, 2] = "Transaction OK" :=
  ⟨(getError_classifies_results 0x01 [0x10]).2.1 _ (by decide) (by decide) (by decide),
   (getError_classifies_results 0x01 [0x21]).2.2.1 (by decide) (by decide) (by decide),
   (getError_classifies_results 0xFF []).1 rfl,
   (getError_classifies_results 0 [1, 2]).2.2.2.1 rfl⟩

/-- C6: `inventoryCmd` reclassifies a successful-flag response with a
payload shorter than 9 bytes (1 format byte + 8 UID bytes) as no answer
and returns `(None, errorMessage)`; only with `responseFlags == 0` and at
least 9 payload bytes does it return `(UID, "")` with the UID taken from
payload bytes 1..8. -/
theorem inventoryCmd_requires_nine_bytes (flags : Nat) (data : List Nat) :
    (flags = 0 → data.length < 9 →
      inventoryCmd flags data = (none, "Transaction ERROR: No Answer from tag")) ∧
    (flags = 0 → 9 ≤ data.length →
      inventoryCmd flags data = (some ((data.drop 1).take 8), "")) := by
  constructor
  · intro h0 hlen
    subst h0
    simp only [inventoryCmd, true_and, if_pos hlen]
    simp [getError]
  · intro h0 hlen
    subst h0
    simp only [inventoryCmd]
    rw [if_neg (by simp only [true_and]; omega : ¬ (True ∧ data.length < 9))]
    simp

/-- C6, witness: flags 0 with a 5-byte payload is classified as no
answer; flags 0 with a 10-byte payload yields the UID from bytes 1..8. -/
theorem inventoryCmd_requires_nine_bytes_witness :
    inventoryCmd 0 [1, 2, 3, 4, 5] =
      (none, "Transaction ERROR: No Answer from tag") ∧
    inventoryCmd 0 [0, 1, 2, 3, 4, 5, 6, 7, 8, 9] =
      (some (([0, 1, 2, 3, 4, 5, 6, 7, 8, 9].drop 1).take 8), "") :=
  ⟨(inventoryCmd_requires_nine_bytes 0 [1, 2, 3, 4, 5]).1 rfl (by decide),
   (inventoryCmd_requires_nine_bytes 0 [0, 1, 2, 3, 4, 5, 6, 7, 8, 9]).2 rfl (by decide)⟩

/-- C7: for every successful response (`responseFlags == 0`) the decoder
reads byte 0 as the infoFlags bitmask, skips the 8 UID bytes, and
consumes the conditionally present fields in order — bit 0 the DSFID
byte, bit 1 the AFI byte, bit 2 two bytes giving `num_blocks = byte + 1`
and `block_size = (byte & 0x1F) + 1` — with absent fields 0.  In
particular infoFlags `0x07` with field bytes `0x05, 0x02, 0x0F, 0x03`
decodes to `TagInfo(dsfid=5, afi=2, num_blocks=16, block_size=4)`. -/
theorem getSystemInformation_decodes_fields
    (fl u0 u1 u2 u3 u4 u5 u6 u7 ds af nb bs : Nat) (extra : List Nat) :
    getSystemInformationCmdResult 0
      (fl :: [u0, u1, u2, u3, u4, u5, u6, u7] ++
        (if fl &&& 0x1 ≠ 0 then [ds] else []) ++
        (if fl &&& 0x2 ≠ 0 then [af] else []) ++
        (if fl &&& 0x4 ≠ 0 then [nb, bs] else []) ++ extra) =
      some (some ⟨(if fl &&& 0x1 ≠ 0 then ds else 0),
                  (if fl &&& 0x2 ≠ 0 then af else 0),
                  (if fl &&& 0x4 ≠ 0 then nb + 1 else 0),
                  (if fl &&& 0x4 ≠ 0 then (bs &&& 0x1F) + 1 else 0)⟩, "") ∧
    getSystemInformationCmdResult 0
      (0x07 :: [u0, u1, u2, u3, u4, u5, u6, u7] ++ [0x05, 0x02, 0x0F, 0x03]) =
      some (some ⟨5, 2, 16, 4⟩, "") := by
  constructor
  · by_cases h1 : fl &&& 0x1 = 0 <;> by_cases h2 : fl &&& 0x2 = 0 <;>
      by_cases h4 : fl &&& 0x4 = 0 <;>
      simp only [h1, h2, h4, ne_eq, eq_self_iff_true, not_true_eq_false,
        not_false_eq_true, if_true, if_false, ite_true, ite_false,
        List.cons_append, List.nil_append] <;>
      simp [getSystemInformationCmdResult, getSystemInformationDecode, h1, h2, h4] <;>
      (intro hx
       exact absurd hx (by have hm := Nat.and_one_is_mod fl; omega))
  · simp [getSystemInformationCmdResult, getSystemInformationDecode]
    decide

/-- C8: every run of `transactionIsoIec15693` that returns (rather than
raising on a bad transceive state) performs `setSystemCommand(IDLE)`
exactly once, as its final chip operation — on the success path, on
either timeout, and on an empty response — and when the RX-start IRQ bit
is absent from every status read the pre-detect window allows, it
returns `(0xFF, [])` after that single IDLE restore. -/
theorem transaction_restores_idle_once (env : ChipEnv) (command : List Nat) :
    (∀ ops fl dat,
      transactionIsoIec15693 env command = Except.ok (ops, fl, dat) →
      List.count (ChipOp.setCmd 0x0) ops = 1 ∧
      ops.getLast? = some (ChipOp.setCmd 0x0)) ∧
    (getRfStatusTransceiveState env.rfStatusReg = "WAIT_TRANSMIT" →
      env.irqA0 &&& RX_SOF_DET_IRQ_STAT = 0 →
      (∀ x ∈ env.irqAs, x &&& RX_SOF_DET_IRQ_STAT = 0) →
      transactionIsoIec15693 env command =
        Except.ok ([ChipOp.clearIrq, ChipOp.setCmd 0x3, ChipOp.send command,
          ChipOp.setCmd 0x0], 0xFF, [])) := by
  constructor
  · intro ops fl dat h
    simp only [transactionIsoIec15693] at h
    by_cases hstate : getRfStatusTransceiveState env.rfStatusReg ≠ "WAIT_TRANSMIT"
    · rw [if_pos hstate] at h
      exact absurd h (by simp)
    · rw [if_neg hstate] at h
      by_cases hbit :
          pollIrq RX_SOF_DET_IRQ_STAT env.irqA0 env.irqAs &&& RX_SOF_DET_IRQ_STAT = 0
      · rw [if_pos hbit] at h
        simp only [Except.ok.injEq, Prod.mk.injEq] at h
        obtain ⟨hops, -, -⟩ := h
        subst hops
        exact ⟨rfl, rfl⟩
      · rw [if_neg hbit] at h
        simp only [Except.ok.injEq, Prod.mk.injEq] at h
        obtain ⟨hops, -, -⟩ := h
        subst hops
        exact ⟨rfl, rfl⟩
  · intro hstate hA0 hAs
    have hnot : ¬ (getRfStatusTransceiveState env.rfStatusReg ≠ "WAIT_TRANSMIT") := by
      simp [hstate]
    have hbit : pollIrq RX_SOF_DET_IRQ_STAT env.irqA0 env.irqAs &&&
        RX_SOF_DET_IRQ_STAT = 0 :=
      pollIrq_all_clear _ _ _ hA0 hAs
    simp only [transactionIsoIec15693, if_neg hnot, if_pos hbit]
    rfl

/-- C8, witness: a chip in `WAIT_TRANSMIT` state whose IRQ status stays 0
(the RX-start bit never appears): the engine returns `(0xFF, [])` and the
trace ends with its single IDLE restore. -/
theorem transaction_restores_idle_once_witness :
    transactionIsoIec15693 quietChipEnv [0x26, 0x01, 0x00] =
      Except.ok ([ChipOp.clearIrq, ChipOp.setCmd 0x3,
        ChipOp.send [0x26, 0x01, 0x00], ChipOp.setCmd 0x0], 0xFF, []) ∧
    List.count (ChipOp.setCmd 0x0) [ChipOp.clearIrq, ChipOp.setCmd 0x3,
      ChipOp.send [0x26, 0x01, 0x00], ChipOp.setCmd 0x0] = 1 ∧
    List.getLast? [ChipOp.clearIrq, ChipOp.setCmd 0x3,
      ChipOp.send [0x26, 0x01, 0x00], ChipOp.setCmd 0x0] =
      some (ChipOp.setCmd 0x0) :=
  have h := transaction_restores_idle_once quietChipEnv [0x26, 0x01, 0x00]
  have heq := h.2 (by decide) (by decide)
    (fun x hx => absurd hx (List.not_mem_nil x))
  ⟨heq, (h.1 _ _ _ heq).1, (h.1 _ _ _ heq).2⟩

/-- C9: during a multi-chunk byte-range write, if the first `k` chunks
get empty response payloads and chunk `k` returns a nonempty payload,
the write stops with an error naming the failing block number and the
`getError`-mapped text, having issued exactly the first `k + 1` chunks —
no WRITE_SINGLE_BLOCK for any later chunk. -/
theorem write_halts_at_first_failing_chunk
    (block_size offset : Nat) (data : List Nat) (resp : Nat → Nat × List Nat)
    (k bn : Nat) (bd : List Nat)
    (hpre : ∀ j < k, (resp j).2 = [])
    (hfail : (resp k).2 ≠ [])
    (hk : (writeChunks block_size offset data)[k]? = some (bn, bd)) :
    nfcWrite block_size offset data resp =
      ((writeChunks block_size offset data).take (k + 1),
        some ("Error writing block " ++ Nat.repr bn ++ ": " ++
          getError (resp k).1 (resp k).2)) := by
  unfold nfcWrite
  have h := runWriteLoop_stops_at_first_error resp (writeChunks block_size offset data)
    0 k bn bd (fun j hj => by simpa using hpre j hj) (by simpa using hfail) hk
  simpa using h

/-- C9, witness: with `blockSize = 4`, `write(2, [9,9,9])` against a
device whose second WRITE_SINGLE_BLOCK answers error flags 1 with payload
`[0x10]`: both chunks up to the failure are issued and the error names
block 1 and the mapped text. -/
theorem write_halts_at_first_failing_chunk_witness :
    nfcWrite 4 2 [9, 9, 9] failAtSecondDevice =
      ([(0, [0, 0, 9, 9]), (1, [9, 0, 0, 0])],
        some ("Error writing block 1: Transaction ERROR: The specified block is not available (doesn t exist).")) :=
  write_halts_at_first_failing_chunk 4 2 [9, 9, 9] failAtSecondDevice 1 1 [9, 0, 0, 0]
    (fun j hj => by
      have hj0 : j = 0 := by omega
      subst hj0
      rfl)
    (by decide) (by decide)

/-- C10: a WRITE_SINGLE_BLOCK chunk that gets no answer from the tag —
transaction result flags `0xFF` with empty payload — is treated as
success: the failure check fires only on a nonempty response payload, so
no error is raised and every chunk of the write is issued. -/
theorem write_treats_no_answer_as_success
    (block_size offset : Nat) (data : List Nat) (resp : Nat → Nat × List Nat)
    (h : ∀ i, resp i = (0xFF, [])) :
    nfcWrite block_size offset data resp =
      (writeChunks block_size offset data, none) := by
  unfold nfcWrite
  apply runWriteLoop_all_clean
  intro j hj
  rw [h (0 + j)]

/-- C10, witness: `write(2, [9,9,9])` with `blockSize = 4` against a
device that never answers issues both chunks and reports no error. -/
theorem write_treats_no_answer_as_success_witness :
    nfcWrite 4 2 [9, 9, 9] noAnswerDevice =
      ([(0, [0, 0, 9, 9]), (1, [9, 0, 0, 0])], none) :=
  write_treats_no_answer_as_success 4 2 [9, 9, 9] noAnswerDevice (fun _ => rfl)

end PyPn5180
